import Mathlib

/-!
Verification of the physical-memory buddy allocator of the kfs-1 kernel
(`src/memory/_kmem.rs`), by a shallow embedding of its state and operations.

Modelling conventions:
* The kernel targets 32-bit x86 (`PhysAddr::as_u32`, bitmap indices `/ 32`),
  so `usize` and `u32` are 32 bits wide.  Machine integers are modelled as
  `Nat` with an explicit `% 2^32` (`u32cast`, `u32sub`) wherever the Rust code
  performs arithmetic that can wrap.
* The intrusive singly-linked free lists (a `FreeBlock { next }` header written
  into each free block) are modelled as one `List Nat` of block start
  addresses per order, head first; pushing a block writes it at the head,
  exactly as `free_region` does.
* The per-page bitmap (`&'static mut [AtomicUsize]`) is a `List Nat` of
  32-bit words.
* Loops that the Rust code bounds by `MAX_ORDER` (or by the region size) are
  written as structural recursion on the number of remaining iterations; the
  chosen bound is the exact bound of the corresponding `while` loop.
* The recursion of `free_block` increases `order` by 1 each step and returns
  as soon as `order > MAX_ORDER`, so its depth from order `o` is at most
  `MAX_ORDER + 1 - o + 1 ≤ MAX_ORDER + 2`; it is modelled with that much fuel
  (`free_block_fuel_congr` below shows the fuel never runs out).
-/

/-- `PAGE_SIZE` from `_kmem.rs`: the size of a page in bytes (4KiB). -/
def PAGE_SIZE : Nat := 4096

/-- `MAX_ORDER` from `_kmem.rs`: up to `2^11 * 4KiB = 8MiB` blocks. -/
def MAX_ORDER : Nat := 11

/-- `2^32`: the modulus of `usize`/`u32` arithmetic on this 32-bit kernel. -/
def USIZE_MOD : Nat := 4294967296

/-- The `as u32` / `as usize` cast (truncation to 32 bits). -/
def u32cast (n : Nat) : Nat := n % USIZE_MOD

/-- Wrapping 32-bit subtraction `a - b` (as `u32`/`usize` subtraction does
in release builds). -/
def u32sub (a b : Nat) : Nat := (a + (USIZE_MOD - b % USIZE_MOD)) % USIZE_MOD

/-- Wrapping 32-bit addition of 1 (`fetch_add(1)` on a 32-bit `AtomicUsize`). -/
def u32add1 (a : Nat) : Nat := (a + 1) % USIZE_MOD

/-- `MultibootMmapEntryType` from `multiboot.rs`. -/
inductive EntryType where
  | Available
  | Reserved
  | AcpiReclamable
  | Nvs
  | Badrram
deriving DecidableEq, Repr, BEq

/-- `MultibootMmapEntry` from `multiboot.rs`: `size: u32`, `addr: u64`,
`len: u64`, `entry_type`.  Its `Ord` instance compares by `len` only. -/
structure MmapEntry where
  size : Nat
  addr : Nat
  len : Nat
  entry_type : EntryType
deriving DecidableEq, Repr

/-- `AllocError` from `_kmem.rs`. -/
inductive AllocError where
  | OutOfMemory
  | InvalidSize
  | NotInitialized
deriving DecidableEq, Repr

/-- The value returned by `allocate` (`Result<PhysAddr, AllocError>`). -/
inductive AllocResult where
  | ok (addr : Nat)
  | err (e : AllocError)
deriving DecidableEq, Repr

/-- The `BuddyAllocator` struct of `_kmem.rs`.

* `free_lists` : one list of free-block start addresses per order
  (index = order, fixed length `MAX_ORDER + 1 = 12`), list head first.
* `inited` models the `initialized: AtomicBool` flag.
* `allocated_pages` is the bitmap: 32-bit words, 1 bit per page
  (1 = allocated, 0 = free).
* `allocated_count` is the `AtomicUsize` counter (wraps at `2^32`).
-/
structure BuddyAllocator where
  free_lists : List (List Nat)
  total_memory : Nat
  memory_start : Nat
  memory_end : Nat
  inited : Bool
  allocated_pages : List Nat
  allocated_count : Nat
  total_pages : Nat
deriving DecidableEq, Repr

/-- `BuddyAllocator::new`.  `memory_start`/`memory_end` are `PhysAddr`
(32-bit) values; `bitmap_region` is the caller-supplied bitmap storage. -/
def BuddyAllocator.new (memory_start memory_end : Nat) (bitmap_region : List Nat) :
    BuddyAllocator :=
  let total_memory := u32sub (u32cast memory_end) (u32cast memory_start)
  { free_lists := List.replicate (MAX_ORDER + 1) []
    total_memory := total_memory
    memory_start := memory_start
    memory_end := memory_end
    inited := false
    allocated_pages := bitmap_region
    allocated_count := 0
    total_pages := total_memory / PAGE_SIZE }

/-- `order_to_size`: `PAGE_SIZE * (1 << order)` (no wrap for the guarded
orders `≤ MAX_ORDER` at every call site). -/
def order_to_size (order : Nat) : Nat := PAGE_SIZE * 2 ^ order

/-- Loop body of `mark_pages_as_free` for a single page index: clear the
page's bit; if it was set, decrement `allocated_count` (wrapping). -/
def markPageFree (s : BuddyAllocator) (idx : Nat) : BuddyAllocator :=
  if idx < s.total_pages then
    let bitmap_idx := idx / 32
    let bit_idx := idx % 32
    if bitmap_idx < s.allocated_pages.length then
      let old := s.allocated_pages.getD bitmap_idx 0
      let s1 := { s with
        allocated_pages :=
          s.allocated_pages.set bitmap_idx (old &&& ((USIZE_MOD - 1) ^^^ (1 <<< bit_idx))) }
      if old &&& (1 <<< bit_idx) ≠ 0 then
        { s1 with allocated_count := u32sub s1.allocated_count 1 }
      else s1
    else s
  else s

/-- `mark_pages_as_free(start_idx, count)`: `for i in 0..count`, with the
`usize` wrap of `start_idx + i`. -/
def mark_pages_as_free (s : BuddyAllocator) (start_idx count : Nat) : BuddyAllocator :=
  (List.range count).foldl (fun t i => markPageFree t ((start_idx + i) % USIZE_MOD)) s

/-- Loop body of `mark_pages_as_allocated` for a single page index: set the
page's bit; if it was clear, increment `allocated_count` (wrapping). -/
def markPageAlloc (s : BuddyAllocator) (idx : Nat) : BuddyAllocator :=
  if idx < s.total_pages then
    let bitmap_idx := idx / 32
    let bit_idx := idx % 32
    if bitmap_idx < s.allocated_pages.length then
      let old := s.allocated_pages.getD bitmap_idx 0
      let s1 := { s with
        allocated_pages := s.allocated_pages.set bitmap_idx (old ||| (1 <<< bit_idx)) }
      if old &&& (1 <<< bit_idx) = 0 then
        { s1 with allocated_count := u32add1 s1.allocated_count }
      else s1
    else s
  else s

/-- `mark_pages_as_allocated(start_idx, count)`. -/
def mark_pages_as_allocated (s : BuddyAllocator) (start_idx count : Nat) : BuddyAllocator :=
  (List.range count).foldl (fun t i => markPageAlloc t ((start_idx + i) % USIZE_MOD)) s

/-- `free_region(addr, order)`: mark the block's pages free in the bitmap and
push the block at the head of `free_lists[order]`.  `page_index` uses the
wrapping `usize` subtraction `addr - memory_start`. -/
def free_region (s : BuddyAllocator) (addr order : Nat) : BuddyAllocator :=
  if order > MAX_ORDER then s
  else
    let page_index := u32sub addr (u32cast s.memory_start) / PAGE_SIZE
    let num_pages := 2 ^ order
    let s1 := mark_pages_as_free s page_index num_pages
    { s1 with free_lists := s1.free_lists.set order (addr :: s1.free_lists.getD order []) }

/-- The `while order < MAX_ORDER` loop of `max_block_size`, as recursion on
the remaining iteration count `MAX_ORDER - order`.  The fit check
`addr + next_size > end_addr` wraps as `usize` addition does. -/
def mbs_loop (addr end_addr : Nat) : Nat → Nat → Nat
  | size, 0 => size
  | size, rem + 1 =>
    let next_size := size * 2
    if addr % next_size ≠ 0 ∨ (addr + next_size) % USIZE_MOD > end_addr then size
    else mbs_loop addr end_addr next_size rem

/-- `max_block_size(addr, end_addr)`: the largest power-of-two block size,
starting from `PAGE_SIZE`, that stays aligned at `addr` and fits before
`end_addr`, growing at most up to order `MAX_ORDER`. -/
def max_block_size (addr end_addr : Nat) : Nat :=
  mbs_loop addr end_addr PAGE_SIZE MAX_ORDER

/-- The `while order_size < pages && order < MAX_ORDER` loop of
`size_to_order`, as recursion on the remaining iterations `MAX_ORDER - order`. -/
def sto_loop (pages : Nat) : Nat → Nat → Nat → Nat
  | order, _, 0 => order
  | order, order_size, rem + 1 =>
    if order_size < pages then sto_loop pages (order + 1) (order_size * 2) rem
    else order

/-- `size_to_order(size)`: smallest order whose block size covers `size`,
clamped to `MAX_ORDER`. -/
def size_to_order (size : Nat) : Nat :=
  sto_loop (size / PAGE_SIZE) 0 1 MAX_ORDER

/-- `align_up(value, align)` = `(value + align - 1) & !(align - 1)` in 32-bit
`usize` arithmetic. -/
def align_up (value al : Nat) : Nat :=
  ((value + al - 1) % USIZE_MOD) &&& ((USIZE_MOD - 1) ^^^ (al - 1))

/-- `align_down(value, align)` = `value & !(align - 1)` in 32-bit `usize`
arithmetic. -/
def align_down (value al : Nat) : Nat :=
  value &&& ((USIZE_MOD - 1) ^^^ (al - 1))

/-- The `while addr + PAGE_SIZE <= aligned_end` region walk of `initialize`:
free the maximal aligned block at `addr`, advance by its size, repeat.  The
fuel is the number of pages below `aligned_end` plus one; each iteration
advances `addr` by at least `PAGE_SIZE`, so within one region the fuel never
runs out (it only cuts the pathological wrap-around at the 4GiB boundary,
where the Rust loop never terminates). -/
def initWalk : Nat → BuddyAllocator → Nat → Nat → BuddyAllocator
  | 0, s, _, _ => s
  | fuel + 1, s, addr, aligned_end =>
    if (addr + PAGE_SIZE) % USIZE_MOD ≤ aligned_end then
      let mbsize := max_block_size addr aligned_end
      let order := size_to_order mbsize
      let s1 := free_region s addr order
      initWalk fuel s1 ((addr + mbsize) % USIZE_MOD) aligned_end
    else s

/-- Processing of one memory-map entry in `initialize`: only `Available`
entries participate; `entry.addr as usize`/`entry.len as usize` truncate to
32 bits; start is aligned up and end aligned down to `PAGE_SIZE`; degenerate
regions are skipped. -/
def initEntry (s : BuddyAllocator) (e : MmapEntry) : BuddyAllocator :=
  if e.entry_type = EntryType.Available then
    let region_start := u32cast e.addr
    let region_end := (region_start + e.len) % USIZE_MOD
    let aligned_start := align_up region_start PAGE_SIZE
    let aligned_end := align_down region_end PAGE_SIZE
    if aligned_start ≥ aligned_end then s
    else initWalk (aligned_end / PAGE_SIZE + 1) s aligned_start aligned_end
  else s

/-- The bitmap-clearing loop of `initialize`: store `!0` (all pages
allocated) into each of the first `bitmap_entries` words that exist. -/
def store_all_ones (s : BuddyAllocator) (bitmap_entries : Nat) : BuddyAllocator :=
  (List.range bitmap_entries).foldl
    (fun t i =>
      if i < t.allocated_pages.length then
        { t with allocated_pages := t.allocated_pages.set i (USIZE_MOD - 1) }
      else t) s

/-- `BuddyAllocator::initialize(entries)` (named `initMmap` here): a second
call is a no-op; otherwise clear the free lists, store `!0` into every bitmap
word (all pages allocated), walk every `Available` region freeing maximal
aligned power-of-two blocks, and set the flag. -/
def BuddyAllocator.initMmap (s : BuddyAllocator) (entries : List MmapEntry) :
    BuddyAllocator :=
  if s.inited then s
  else
    let s1 := { s with free_lists := List.replicate (MAX_ORDER + 1) [] }
    let bitmap_entries := (s1.total_pages + 31) / 32
    let s2 := store_all_ones s1 bitmap_entries
    let s3 := (entries.filter (fun e => e.entry_type == EntryType.Available)).foldl
      initEntry s2
    { s3 with inited := true }

/-- The splitting loop of `find_free_block`: `while current_order > order`,
written as recursion on `diff = current_order - order`.  Each step frees the
upper buddy half `block_addr + order_to_size(current_order - 1)` at the
decremented order; `block_addr` itself never changes. -/
def split_loop (s : BuddyAllocator) (block_addr order : Nat) : Nat → BuddyAllocator
  | 0 => s
  | d + 1 =>
    let current := order + d
    let buddy_addr := (block_addr + order_to_size current) % USIZE_MOD
    split_loop (free_region s buddy_addr current) block_addr order d

/-- The upward scan of `find_free_block`: `while current_order <= MAX_ORDER`,
written as recursion on the remaining orders `MAX_ORDER + 1 - current`.  On
the first non-empty list, pop its head and split it down to `order`. -/
def ffb_loop (s : BuddyAllocator) (order : Nat) : Nat → Nat → Option (Nat × BuddyAllocator)
  | _, 0 => none
  | current, rem + 1 =>
    match s.free_lists.getD current [] with
    | [] => ffb_loop s order (current + 1) rem
    | block :: rest =>
      let s1 := { s with free_lists := s.free_lists.set current rest }
      some (block, split_loop s1 block order (current - order))

/-- `find_free_block(order)`: scan free lists from `order` up to `MAX_ORDER`;
returns the popped block's address and the state after splitting. -/
def find_free_block (s : BuddyAllocator) (order : Nat) : Option (Nat × BuddyAllocator) :=
  ffb_loop s order order (MAX_ORDER + 1 - order)

/-- `allocate(order)`: `NotInitialized` before bootstrap, `InvalidSize` above
`MAX_ORDER`, otherwise pop-and-split via `find_free_block`, mark the block's
pages allocated, and return its address (as `PhysAddr::from(addr as u32)`). -/
def BuddyAllocator.allocate (s : BuddyAllocator) (order : Nat) :
    AllocResult × BuddyAllocator :=
  if !s.inited then (.err .NotInitialized, s)
  else if order > MAX_ORDER then (.err .InvalidSize, s)
  else
    match find_free_block s order with
    | some (block_addr, s1) =>
      let page_index := u32sub block_addr (u32cast s1.memory_start) / PAGE_SIZE
      let s2 := mark_pages_as_allocated s1 page_index (2 ^ order)
      (.ok (u32cast block_addr), s2)
    | none => (.err .OutOfMemory, s)

/-- `is_buddy_free(buddy_addr, order)`: bounds check against
`memory_start`/`memory_end` (the upper comparison uses the wrapping `usize`
sum `buddy_addr + order_to_size(order)`), then a linear scan of
`free_lists[order]` for pointer equality with `buddy_addr`. -/
def is_buddy_free (s : BuddyAllocator) (buddy_addr order : Nat) : Bool :=
  if buddy_addr < u32cast s.memory_start ∨
      (buddy_addr + order_to_size order) % USIZE_MOD > u32cast s.memory_end then
    false
  else (s.free_lists.getD order []).contains buddy_addr

/-- Unlinking by address in an intrusive singly-linked list: drop the first
occurrence (head case `free_lists[order] == addr_ptr`, interior case
`(*current).next == addr_ptr`), leave the list unchanged if absent. -/
def removeFirst : List Nat → Nat → List Nat
  | [], _ => []
  | x :: xs, a => if x = a then xs else x :: removeFirst xs a

/-- `remove_from_free_list(addr, order)`. -/
def remove_from_free_list (s : BuddyAllocator) (addr order : Nat) : BuddyAllocator :=
  { s with free_lists := s.free_lists.set order (removeFirst (s.free_lists.getD order []) addr) }

/-- `free_block(addr, order)`: return at once above `MAX_ORDER`; otherwise
compute the buddy as `addr ^ order_to_size(order)`; if the buddy is free,
unlink it and recurse one order up at `min(addr, buddy)`, else push the block
via `free_region`.  `fuel` bounds the recursion (see the header comment). -/
def free_block : Nat → BuddyAllocator → Nat → Nat → BuddyAllocator
  | 0, s, _, _ => s
  | fuel + 1, s, addr, order =>
    if order > MAX_ORDER then s
    else
      let buddy_addr := addr ^^^ order_to_size order
      if is_buddy_free s buddy_addr order then
        free_block fuel (remove_from_free_list s buddy_addr order)
          (min addr buddy_addr) (order + 1)
      else free_region s addr order

/-- `free(addr, order)`: silently ignore calls before bootstrap or with
`order > MAX_ORDER`; log-and-drop misaligned addresses; otherwise coalesce
via `free_block`. -/
def BuddyAllocator.free (s : BuddyAllocator) (addr order : Nat) : BuddyAllocator :=
  if !s.inited ∨ order > MAX_ORDER then s
  else
    let addr_val := u32cast addr
    if addr_val % order_to_size order ≠ 0 then s
    else free_block (MAX_ORDER + 2) s addr_val order

/-- `total_pages()` accessor. -/
def BuddyAllocator.totalPages (s : BuddyAllocator) : Nat := s.total_pages

/-- `allocated_pages()` accessor (loads `allocated_count`). -/
def BuddyAllocator.allocatedPages (s : BuddyAllocator) : Nat := s.allocated_count

/-- `free_pages()` accessor: `total_pages - allocated_pages()`, a wrapping
`usize` subtraction in release builds. -/
def BuddyAllocator.freePages (s : BuddyAllocator) : Nat :=
  u32sub s.total_pages s.allocated_count

/-- `size_of::<AtomicUsize>()` on this 32-bit target. -/
def SIZEOF_USIZE : Nat := 4

/-- `Iterator::max` over `MultibootMmapEntry` values: the `Ord` instance in
`multiboot.rs` compares by `len` only, and `max` keeps the last of several
equally-maximal elements. -/
def iter_max_by_len (entries : List MmapEntry) : Option MmapEntry :=
  entries.foldl
    (fun acc e =>
      match acc with
      | none => some e
      | some m => if e.len < m.len then some m else some e)
    none

/-- Number of bitmap words reserved by the module-level `initialize`:
`(total_pages + 7) / 8` bytes, rounded up to whole `AtomicUsize` words. -/
def bitmap_size_words (total_pages : Nat) : Nat :=
  ((total_pages + 7) / 8 + SIZEOF_USIZE - 1) / SIZEOF_USIZE

/-- `bitmap_aligned_end` as computed (and then never used) by the module-level
`initialize`: one page-aligned byte past the bitmap storage. -/
def bitmap_aligned_end (bitmap_addr words : Nat) : Nat :=
  align_up (bitmap_addr + words * SIZEOF_USIZE) PAGE_SIZE

/-- The module-level `initialize(mbi)` of `_kmem.rs`, given the decoded
memory-map entry slice: pick the largest `Available` region, reserve bitmap
storage at its start (`slice::from_raw_parts_mut` over raw memory, so the
initial word contents are irrelevant: `BuddyAllocator::initialize` overwrites
every word — `(total_pages + 31) / 32 = bitmap_size_words total_pages`),
construct the allocator over `[1MiB, largest.addr + largest.len)`, initialize
it, and store it in the global `OnceLock` (modelled as `Option`).  Returns
`none` when no `Available` region exists (the error branch). -/
def kmem_init (entries : List MmapEntry) : Option BuddyAllocator :=
  match iter_max_by_len (entries.filter (fun e => e.entry_type == EntryType.Available)) with
  | none => none
  | some largest =>
    let memory_start := 1024 * 1024
    let memory_end := u32cast (largest.addr + largest.len)
    let total_memory := u32sub memory_end memory_start
    let total_pages := total_memory / PAGE_SIZE
    let words := bitmap_size_words total_pages
    let bitmap_region := List.replicate words 0
    let allocator := BuddyAllocator.new memory_start memory_end bitmap_region
    some (allocator.initMmap entries)

/-- The `while order_size < count` loop shared verbatim by `allocate_pages`
and `free_pages`: the smallest order whose block size covers `count` pages,
or `None` (`InvalidSize` / warning) once `order` exceeds `MAX_ORDER`.  The
loop runs at most `MAX_ORDER + 1` times, which is the fuel. -/
def cto_loop (count : Nat) : Nat → Nat → Nat → Option Nat
  | order, order_size, 0 => if order_size < count then none else some order
  | order, order_size, rem + 1 =>
    if order_size < count then
      if order + 1 > MAX_ORDER then none
      else cto_loop count (order + 1) (order_size * 2) rem
    else some order

/-- The module-level `allocate_pages(count)`, over the global allocator state
(`none` = `OnceLock` not yet set). -/
def allocate_pages (g : Option BuddyAllocator) (count : Nat) :
    AllocResult × Option BuddyAllocator :=
  if count = 0 then (.err .InvalidSize, g)
  else
    match cto_loop count 0 1 (MAX_ORDER + 1) with
    | none => (.err .InvalidSize, g)
    | some order =>
      match g with
      | some a =>
        let r := a.allocate order
        (r.1, some r.2)
      | none => (.err .NotInitialized, g)

/-- The module-level `free_pages(addr, count)`. -/
def free_pages (g : Option BuddyAllocator) (addr count : Nat) : Option BuddyAllocator :=
  if count = 0 then g
  else
    match cto_loop count 0 1 (MAX_ORDER + 1) with
    | none => g
    | some order =>
      match g with
      | some a => some (a.free addr order)
      | none => g

/-- The module-level `memory_stats()`. -/
def memory_stats (g : Option BuddyAllocator) : Option (Nat × Nat × Nat) :=
  match g with
  | some a => some (a.totalPages, a.allocatedPages, a.freePages)
  | none => none

/-- The bitmap bit of page `idx` (`true` = allocated), read the way the code
reads it: word `idx / 32`, bit `idx % 32`. -/
def pageBit (s : BuddyAllocator) (idx : Nat) : Bool :=
  s.allocated_pages.getD (idx / 32) 0 &&& (1 <<< (idx % 32)) ≠ 0

/-- Whether page index `idx` lies inside some block currently linked on some
order's free list (block `a` at order `o` covers page indices
`(a - memory_start) / PAGE_SIZE + [0, 2^o)`). -/
def coveredByFreeList (s : BuddyAllocator) (idx : Nat) : Bool :=
  (List.range (MAX_ORDER + 1)).any fun o =>
    (s.free_lists.getD o []).any fun a =>
      let base := u32sub a (u32cast s.memory_start) / PAGE_SIZE
      base ≤ idx && idx < base + 2 ^ o

/-- The bitmap/free-list agreement invariant claimed by the spec: for every
page index below `total_pages`, the page's bit is 0 (free) iff the page is
covered by some free-list entry. -/
def bitmapMatchesFreeLists (s : BuddyAllocator) : Prop :=
  ∀ idx, idx < s.total_pages → (pageBit s idx = false ↔ coveredByFreeList s idx = true)

instance (s : BuddyAllocator) : Decidable (bitmapMatchesFreeLists s) := by
  unfold bitmapMatchesFreeLists
  exact Nat.decidableBallLT _ _

/-- The order-`o` free-list alignment invariant of the data model: every
address on the order-`o` list is a multiple of `PAGE_SIZE << o`. -/
def AlignedFreeLists (s : BuddyAllocator) : Prop :=
  ∀ o : Nat, ∀ a ∈ s.free_lists.getD o [], a % order_to_size o = 0

/-- States of the allocator reachable through its public interface: an
allocator built by `new` and bootstrapped by `initialize`, then mutated by
any sequence of `initialize` / `allocate` / `free` calls. -/
inductive Reachable : BuddyAllocator → Prop where
  | boot (ms me : Nat) (bm : List Nat) (entries : List MmapEntry) :
      Reachable ((BuddyAllocator.new ms me bm).initMmap entries)
  | reinit (s : BuddyAllocator) (entries : List MmapEntry) :
      Reachable s → Reachable (s.initMmap entries)
  | alloc (s : BuddyAllocator) (o : Nat) :
      Reachable s → Reachable (s.allocate o).2
  | dealloc (s : BuddyAllocator) (a o : Nat) :
      Reachable s → Reachable (s.free a o)

/-- The smallest order whose block size covers `count` pages
(`⌈log₂ count⌉`); what `allocate_pages` computes for `1 ≤ count ≤ 2^MAX_ORDER`. -/
def minCoverOrder (count : Nat) : Nat := Nat.clog 2 count

/-- Scenario A memory map: a single available region `[0x0, 0x2000)`. -/
def entA : MmapEntry := ⟨20, 0, 0x2000, .Available⟩

/-- Scenario A allocator after `initialize`: built over `[0x0, 0x2000)` with
a one-word bitmap (2 pages). -/
def allocA : BuddyAllocator := (BuddyAllocator.new 0 0x2000 [0]).initMmap [entA]

/-- Scenario A, first `allocate(0)`. -/
def allocA1 : AllocResult × BuddyAllocator := allocA.allocate 0

/-- Scenario A, second `allocate(0)`. -/
def allocA2 : AllocResult × BuddyAllocator := allocA1.2.allocate 0

/-- Scenario A, third `allocate(0)`. -/
def allocA3 : AllocResult × BuddyAllocator := allocA2.2.allocate 0

/-- Scenario A, after `free(0x1000, 0)`. -/
def sAfree1 : BuddyAllocator := allocA3.2.free 0x1000 0

/-- Scenario A, after `free(0x1000, 0)` then `free(0x0, 0)`. -/
def sAfree2 : BuddyAllocator := sAfree1.free 0 0

/-- Memory map for the C3 counterexample: one available region
`[0x100000, 0x101000)` (a single page at 1MiB). -/
def entC3 : MmapEntry := ⟨20, 1048576, 4096, .Available⟩

/-- Global allocator state after the module-level `initialize` on `entC3`. -/
def gC3 : Option BuddyAllocator := kmem_init [entC3]

/-- Memory map for the MAX_ORDER-coalescing scenario: a single available
region `[0x0, 0x1000000)` (16MiB, i.e. two order-11 = 8MiB blocks). -/
def entB : MmapEntry := ⟨20, 0, 16777216, .Available⟩

/-- Builder for concrete 16MiB-scenario states, fixing the fields that never
change: memory `[0x0, 0x1000000)`, 4096 pages. -/
def mkB (b : Bool) (lists : List (List Nat)) (bm : List Nat) (cnt : Nat) :
    BuddyAllocator :=
  { free_lists := lists
    total_memory := 16777216
    memory_start := 0
    memory_end := 16777216
    inited := b
    allocated_pages := bm
    allocated_count := cnt
    total_pages := 4096 }

/-- Twelve empty free lists. -/
def emptyLists : List (List Nat) := List.replicate (MAX_ORDER + 1) []

/-- 16MiB-scenario bitmap after the first `2^11`-page block free has cleared
`k` chunks of 32 pages (one word) each, starting from an all-ones bitmap. -/
def bmA (k : Nat) : List Nat :=
  List.replicate k 0 ++ List.replicate (128 - k) (USIZE_MOD - 1)

/-- 16MiB-scenario bitmap after the second block free has cleared `k` further
32-page chunks (words 64..127), the first 64 words being already 0. -/
def bmB (k : Nat) : List Nat :=
  List.replicate (64 + k) 0 ++ List.replicate (64 - k) (USIZE_MOD - 1)

/-- 16MiB-scenario bitmap after `allocate(11)` has set `k` 32-page chunks in
words 64..127, starting from the all-zeros bitmap. -/
def bmC (k : Nat) : List Nat :=
  List.replicate 64 0 ++ List.replicate k (USIZE_MOD - 1) ++
    List.replicate (64 - k) 0

/-- 16MiB scenario: state after `initialize` — two order-11 free blocks
(head `0x800000`, then `0x0`), all 4096 page bits clear, and the wrapped
allocated counter `0 - 4096`. -/
def sB0 : BuddyAllocator :=
  mkB true (emptyLists.set 11 [8388608, 0]) (bmB 64) (USIZE_MOD - 4096)

/-- 16MiB scenario: state after `allocate(11)` returned `0x800000`. -/
def sB1 : BuddyAllocator :=
  mkB true (emptyLists.set 11 [0]) (bmC 64) (USIZE_MOD - 2048)

/-- 16MiB scenario: state after `free(0x800000, 11)` — the buddy `0x0` was
unlinked from the order-11 list and the merged block was dropped by the
`order > MAX_ORDER` guard of `free_block`, so every free list is empty while
pages 0..2047 remain marked free in the bitmap. -/
def sBf : BuddyAllocator :=
  mkB true emptyLists (bmC 64) (USIZE_MOD - 2048)

/-- 16MiB scenario: the allocator state produced by `initialize` on the
memory map `[entB]`. -/
def sBinit : BuddyAllocator :=
  (BuddyAllocator.new 0 16777216 (List.replicate 128 0)).initMmap [entB]

/-- 16MiB scenario: the result of `allocate(11)` on `sBinit`. -/
def sBalloc : AllocResult × BuddyAllocator := sBinit.allocate 11

/-- 16MiB scenario: the state after `free(0x800000, 11)` of the block just
returned by `allocate(11)`. -/
def sBfinal : BuddyAllocator := sBalloc.2.free 8388608 11

/-!  ## Theorems  -/

/-- C1: Scenario A.  Over the single available region `[0x0, 0x2000)`,
`initialize` yields exactly one order-1 free block at `0x0`; `allocate(0)`
returns `0x0` leaving an order-0 free block at `0x1000`; a second
`allocate(0)` returns `0x1000`; a third returns `OutOfMemory`;
`free(0x1000, 0)` then `free(0x0, 0)` recombine the memory into exactly one
order-1 free block at `0x0`. -/
theorem scenarioA_trace :
    allocA.free_lists = [[], [0], [], [], [], [], [], [], [], [], [], []] ∧
    allocA1.1 = .ok 0 ∧
    allocA1.2.free_lists = [[0x1000], [], [], [], [], [], [], [], [], [], [], []] ∧
    allocA2.1 = .ok 0x1000 ∧
    allocA2.2.free_lists = [[], [], [], [], [], [], [], [], [], [], [], []] ∧
    allocA3.1 = .err .OutOfMemory ∧
    sAfree1.free_lists = [[0x1000], [], [], [], [], [], [], [], [], [], [], []] ∧
    sAfree2.free_lists = [[], [0], [], [], [], [], [], [], [], [], [], []] := by
  decide

/-- C4 counterexample: on Scenario A's map exactly `F = 2` pages are freed
during bootstrap, but `allocated_count` starts at 0 (never synced with the
all-ones bitmap) and wraps under `fetch_sub`, so `allocated_pages()` returns
`2^32 - 2` instead of `total_pages - F = 0` and `free_pages()` returns `4`
instead of `2`; the conservation identity fails in exact arithmetic. -/
theorem stats_wrap_counterexample :
    allocA.totalPages = 2 ∧
    allocA.allocatedPages = USIZE_MOD - 2 ∧
    allocA.freePages = 4 ∧
    allocA.allocatedPages ≠ allocA.totalPages - 2 ∧
    allocA.allocatedPages + allocA.freePages ≠ allocA.totalPages := by
  decide

/-- C3 counterexample: on the map with the single available region
`[0x100000, 0x101000)`, the module-level `initialize` carves its bitmap
storage at `0x100000` (storage range `[0x100000, 0x101000)`), yet
`BuddyAllocator::initialize` walks the same region and links the block
`0x100000` — the bitmap's own page — onto the order-0 free list, and the
first `allocate_pages(1)` hands that address out. -/
theorem bitmap_storage_reissued :
    (gC3.map BuddyAllocator.free_lists) =
      some [[0x100000], [], [], [], [], [], [], [], [], [], [], []] ∧
    (allocate_pages gC3 1).1 = .ok 0x100000 ∧
    bitmap_aligned_end 0x100000 (bitmap_size_words 1) = 0x101000 := by
  decide

/-- C8: for every initialized allocator state, order `≤ MAX_ORDER`, and
address (a 32-bit `PhysAddr` value) misaligned for that order, `free` drops
the request and leaves the entire state — free lists, bitmap and counter —
unchanged. -/
theorem free_misaligned_keeps_state (s : BuddyAllocator) (addr order : Nat)
    (h0 : s.inited = true) (h1 : order ≤ MAX_ORDER) (h2 : addr < USIZE_MOD)
    (h3 : addr % order_to_size order ≠ 0) :
    s.free addr order = s := by
  have hradd : u32cast addr = addr := Nat.mod_eq_of_lt h2
  unfold BuddyAllocator.free
  rw [if_neg, if_pos]
  · rw [hradd]; exact h3
  · simp [h0, Nat.not_lt.2 h1]

/-- C8 witness: `free(0x1, 0)` on the Scenario A allocator (initialized,
order 0, `0x1 % 0x1000 ≠ 0`) returns the state unchanged. -/
theorem free_misaligned_keeps_state_witness : allocA.free 1 0 = allocA :=
  free_misaligned_keeps_state allocA 1 0 (by decide) (by decide) (by decide)
    (by decide)

/-- C9: `free` called before `initialize` has completed, or with
`order > MAX_ORDER`, returns without modifying anything and without
reporting any error — `free` has no error channel. -/
theorem free_unready_or_invalid_noop (s : BuddyAllocator) (addr order : Nat)
    (h : s.inited = false ∨ MAX_ORDER < order) :
    s.free addr order = s := by
  unfold BuddyAllocator.free
  rcases h with h | h
  · rw [if_pos]; simp [h]
  · rw [if_pos]; simp [h]

/-- C9 witness: `free(0x0, 0)` on a freshly constructed (un-bootstrapped)
allocator returns it unchanged. -/
theorem free_unready_or_invalid_noop_witness :
    (BuddyAllocator.new 0 0x2000 [0]).free 0 0 = BuddyAllocator.new 0 0x2000 [0] :=
  free_unready_or_invalid_noop _ 0 0 (Or.inl (by decide))
lemma cto_loop_reaches (count : Nat) (h2 : count ≤ 2 ^ MAX_ORDER) :
    ∀ rem order, order + rem = MAX_ORDER + 1 →
      cto_loop count order (2 ^ order) rem =
        some (if count ≤ 2 ^ order then order else Nat.clog 2 count) := by
  intro rem
  induction rem with
  | zero =>
    intro order ho
    have : order = MAX_ORDER + 1 := by omega
    subst this
    have hlt : count ≤ 2 ^ (MAX_ORDER + 1) :=
      le_trans h2 (Nat.pow_le_pow_right (by norm_num) (by omega))
    unfold cto_loop
    rw [if_neg (by omega), if_pos hlt]
  | succ rem ih =>
    intro order ho
    unfold cto_loop
    by_cases hlt : 2 ^ order < count
    · rw [if_pos hlt]
      have hord : ¬ (order + 1 > MAX_ORDER) := by
        by_contra hc
        have : order = MAX_ORDER := by omega
        subst this
        exact absurd h2 (by omega)
      rw [if_neg hord]
      have hpow : 2 ^ order * 2 = 2 ^ (order + 1) := by rw [Nat.pow_succ]
      rw [hpow, ih (order + 1) (by omega)]
      have hnotle : ¬ count ≤ 2 ^ order := by omega
      rw [if_neg hnotle]
      by_cases hle1 : count ≤ 2 ^ (order + 1)
      · rw [if_pos hle1]
        congr 1
        have hclog_le : Nat.clog 2 count ≤ order + 1 :=
          (Nat.le_pow_iff_clog_le (by norm_num)).1 hle1
        have hlt_clog : order < Nat.clog 2 count :=
          (Nat.pow_lt_iff_lt_clog (by norm_num)).1 hlt
        omega
      · rw [if_neg hle1]
    · rw [if_neg hlt, if_pos (by omega)]

lemma cto_loop_exceeds (count : Nat) (h : 2 ^ MAX_ORDER < count) :
    ∀ rem order, order + rem = MAX_ORDER + 1 → order ≤ MAX_ORDER →
      cto_loop count order (2 ^ order) rem = none := by
  intro rem
  induction rem with
  | zero => intro order ho hle; omega
  | succ rem ih =>
    intro order ho hle
    have hlt : 2 ^ order < count :=
      lt_of_le_of_lt (Nat.pow_le_pow_right (by norm_num) hle) h
    unfold cto_loop
    rw [if_pos hlt]
    by_cases hord : order + 1 > MAX_ORDER
    · rw [if_pos hord]
    · rw [if_neg hord]
      have hpow : 2 ^ order * 2 = 2 ^ (order + 1) := by rw [Nat.pow_succ]
      rw [hpow]
      exact ih (order + 1) (by omega) (by omega)

theorem allocate_pages_semantics (g : Option BuddyAllocator) (count : Nat) :
    allocate_pages g count =
      (if count = 0 ∨ 2 ^ MAX_ORDER < count then (.err .InvalidSize, g)
       else
         match g with
         | none => (.err .NotInitialized, none)
         | some a =>
           ((a.allocate (minCoverOrder count)).1,
            some (a.allocate (minCoverOrder count)).2)) ∧
    (count = 0 ∨ (count ≤ 2 ^ minCoverOrder count ∧
      ∀ j : Nat, 2 ^ j < count ∨ minCoverOrder count ≤ j)) := by
  constructor
  · unfold allocate_pages
    by_cases h0 : count = 0
    · subst h0
      simp
    · rw [if_neg h0]
      by_cases hbig : 2 ^ MAX_ORDER < count
      · have hnone := cto_loop_exceeds count hbig (MAX_ORDER + 1) 0 (by omega) (by omega)
        norm_num at hnone
        rw [hnone, if_pos (Or.inr hbig)]
      · have hle : count ≤ 2 ^ MAX_ORDER := by omega
        have hsome := cto_loop_reaches count hle (MAX_ORDER + 1) 0 (by omega)
        norm_num at hsome
        have hcoll : (if count ≤ 1 then 0 else Nat.clog 2 count) = minCoverOrder count := by
          unfold minCoverOrder
          by_cases h1 : count ≤ 1
          · have : count = 1 := by omega
            subst this
            rw [if_pos (by omega), Nat.clog_one_right]
          · rw [if_neg h1]
        rw [hsome, hcoll, if_neg (by push_neg; omega)]
        cases g with
        | none => rfl
        | some a => rfl
  · by_cases h0 : count = 0
    · exact Or.inl h0
    · refine Or.inr ⟨Nat.le_pow_clog (by norm_num) count, fun j => ?_⟩
      rcases le_or_lt count (2 ^ j) with h | h
      · exact Or.inr ((Nat.le_pow_iff_clog_le (by norm_num)).1 h)
      · exact Or.inl h
lemma getD_set_self {α : Type} (l : List α) (i : Nat) (x d : α) (h : i < l.length) :
    (l.set i x).getD i d = x := by
  rw [List.getD_eq_getElem?_getD, List.getElem?_set_self h, Option.getD_some]

lemma getD_set_ne {α : Type} (l : List α) (i j : Nat) (x d : α) (h : i ≠ j) :
    (l.set i x).getD j d = l.getD j d := by
  rw [List.getD_eq_getElem?_getD, List.getElem?_set_ne h, ← List.getD_eq_getElem?_getD]

lemma markPageFree_free_lists (s : BuddyAllocator) (i : Nat) :
    (markPageFree s i).free_lists = s.free_lists := by
  unfold markPageFree
  repeat' first | rfl | split | dsimp only

lemma markPageFree_inited (s : BuddyAllocator) (i : Nat) :
    (markPageFree s i).inited = s.inited := by
  unfold markPageFree
  repeat' first | rfl | split | dsimp only

lemma markPageAlloc_free_lists (s : BuddyAllocator) (i : Nat) :
    (markPageAlloc s i).free_lists = s.free_lists := by
  unfold markPageAlloc
  repeat' first | rfl | split | dsimp only

lemma markPageAlloc_inited (s : BuddyAllocator) (i : Nat) :
    (markPageAlloc s i).inited = s.inited := by
  unfold markPageAlloc
  repeat' first | rfl | split | dsimp only

lemma foldl_proj_const {α : Type} {β : Type} (proj : BuddyAllocator → β)
    (f : BuddyAllocator → α → BuddyAllocator)
    (hf : ∀ t i, proj (f t i) = proj t) :
    ∀ (l : List α) (s : BuddyAllocator), proj (l.foldl f s) = proj s := by
  intro l
  induction l with
  | nil => intro s; rfl
  | cons x xs ih => intro s; rw [List.foldl_cons, ih, hf]

lemma mark_pages_as_free_free_lists (s : BuddyAllocator) (a c : Nat) :
    (mark_pages_as_free s a c).free_lists = s.free_lists :=
  foldl_proj_const _ _ (fun t _ => markPageFree_free_lists t _) _ s

lemma mark_pages_as_free_inited (s : BuddyAllocator) (a c : Nat) :
    (mark_pages_as_free s a c).inited = s.inited :=
  foldl_proj_const _ _ (fun t _ => markPageFree_inited t _) _ s

lemma mark_pages_as_allocated_free_lists (s : BuddyAllocator) (a c : Nat) :
    (mark_pages_as_allocated s a c).free_lists = s.free_lists :=
  foldl_proj_const _ _ (fun t _ => markPageAlloc_free_lists t _) _ s

lemma mark_pages_as_allocated_inited (s : BuddyAllocator) (a c : Nat) :
    (mark_pages_as_allocated s a c).inited = s.inited :=
  foldl_proj_const _ _ (fun t _ => markPageAlloc_inited t _) _ s

lemma free_region_free_lists (s : BuddyAllocator) (addr order : Nat)
    (h : order ≤ MAX_ORDER) :
    (free_region s addr order).free_lists =
      s.free_lists.set order (addr :: s.free_lists.getD order []) := by
  unfold free_region
  rw [if_neg (by omega)]
  simp only [mark_pages_as_free_free_lists]

lemma free_region_inited (s : BuddyAllocator) (addr order : Nat) :
    (free_region s addr order).inited = s.inited := by
  unfold free_region
  split
  · rfl
  · simp only [mark_pages_as_free_inited]

lemma split_loop_zero (s : BuddyAllocator) (b o : Nat) : split_loop s b o 0 = s := rfl

/-- C10: freeing an aligned, in-bounds, order-`O` block whose buddy is not
on the order-`O` free list and immediately allocating at order `O` returns
exactly that block: the most recently freed block is the first handed out. -/
theorem free_then_allocate_lifo (s : BuddyAllocator) (a order : Nat)
    (hlen : s.free_lists.length = MAX_ORDER + 1)
    (hinit : s.inited = true) (hord : order ≤ MAX_ORDER)
    (haddr : a < USIZE_MOD) (hnz : a ≠ 0)
    (halign : a % order_to_size order = 0)
    (hlo : u32cast s.memory_start ≤ a)
    (hhi : a + order_to_size order ≤ u32cast s.memory_end)
    (hbuddy : (a ^^^ order_to_size order) ∉ s.free_lists.getD order []) :
    ((s.free a order).allocate order).1 = .ok a := by
  have hamod : u32cast a = a := Nat.mod_eq_of_lt haddr
  have hibf : is_buddy_free s (a ^^^ order_to_size order) order = false := by
    unfold is_buddy_free
    split
    · rfl
    · exact Bool.eq_false_iff.mpr fun hc => hbuddy (List.mem_of_elem_eq_true hc)
  have hfree : s.free a order = free_region s a order := by
    unfold BuddyAllocator.free
    rw [if_neg (by simp [hinit]; omega)]
    dsimp only
    rw [hamod, if_neg (by simp [halign])]
    have h13 : MAX_ORDER + 2 = (MAX_ORDER + 1) + 1 := rfl
    rw [h13]
    unfold free_block
    rw [if_neg (by omega)]
    dsimp only
    rw [hibf]
    simp
  set old := s.free_lists.getD order [] with hold
  have hfl : (free_region s a order).free_lists = s.free_lists.set order (a :: old) :=
    free_region_free_lists s a order hord
  have hfi : (free_region s a order).inited = true := by
    rw [free_region_inited]; exact hinit
  have hgd : (free_region s a order).free_lists.getD order [] = a :: old := by
    rw [hfl]
    exact getD_set_self _ _ _ _ (by omega)
  rw [hfree]
  unfold BuddyAllocator.allocate
  rw [if_neg (by simp [hfi]), if_neg (by omega)]
  have hr : MAX_ORDER + 1 - order = (MAX_ORDER - order) + 1 := by omega
  unfold find_free_block
  rw [hr]
  unfold ffb_loop
  rw [hgd]
  dsimp only
  rw [hamod]


/-- C10 witness: on the Scenario A allocator, `free(0x1000, 0)` followed by
`allocate(0)` hands back exactly `0x1000`. -/
theorem free_then_allocate_lifo_witness :
    ((allocA.free 0x1000 0).allocate 0).1 = .ok 0x1000 :=
  free_then_allocate_lifo allocA 0x1000 0 (by decide) (by decide) (by decide)
    (by decide) (by decide) (by decide) (by decide) (by decide) (by decide)

lemma PAGE_SIZE_eq : PAGE_SIZE = 2 ^ 12 := by norm_num [PAGE_SIZE]

lemma order_to_size_eq_pow (o : Nat) : order_to_size o = 2 ^ (12 + o) := by
  unfold order_to_size
  rw [PAGE_SIZE_eq, pow_add]

lemma order_to_size_dvd (o o' : Nat) (h : o ≤ o') :
    order_to_size o ∣ order_to_size o' := by
  rw [order_to_size_eq_pow, order_to_size_eq_pow]
  exact pow_dvd_pow 2 (by omega)

lemma order_to_size_dvd_usize (o : Nat) (h : o ≤ MAX_ORDER) :
    order_to_size o ∣ USIZE_MOD := by
  rw [order_to_size_eq_pow]
  have : USIZE_MOD = 2 ^ 32 := by norm_num [USIZE_MOD]
  rw [this]
  exact pow_dvd_pow 2 (by unfold MAX_ORDER at h; omega)

lemma land_mod_two_pow_zero (x m k : Nat) (h : m % 2 ^ k = 0) :
    (x &&& m) % 2 ^ k = 0 := by
  rw [← Nat.and_pow_two_sub_one_eq_mod, Nat.and_assoc,
    Nat.and_pow_two_sub_one_eq_mod, h, Nat.and_zero]

lemma align_up_page_aligned (v : Nat) : align_up v PAGE_SIZE % PAGE_SIZE = 0 := by
  unfold align_up
  rw [PAGE_SIZE_eq]
  exact land_mod_two_pow_zero _ _ 12 (by decide)

lemma mul_two_pow_xor (k a b : Nat) : (2 ^ k * a) ^^^ (2 ^ k * b) = 2 ^ k * (a ^^^ b) := by
  apply Nat.eq_of_testBit_eq
  intro i
  simp only [Nat.testBit_xor, Nat.testBit_mul_pow_two]
  by_cases h : i ≥ k
  · simp [h]
  · simp [h]

lemma xor_one_of_even (q : Nat) (h : q % 2 = 0) : q ^^^ 1 = q + 1 := by
  have h2 : (q ^^^ 1) % 2 = 1 := by
    rw [Nat.xor_mod_two_eq_one]
    omega
  have h3 : (q ^^^ 1) / 2 = q / 2 := by
    rw [Nat.xor_div_two]
    norm_num
  omega

lemma xor_one_of_odd (q : Nat) (h : q % 2 = 1) : q ^^^ 1 = q - 1 := by
  have h2 : (q ^^^ 1) % 2 = 0 := by
    have := Nat.xor_mod_two_eq_one (a := q) (b := 1)
    omega
  have h3 : (q ^^^ 1) / 2 = q / 2 := by
    rw [Nat.xor_div_two]
    norm_num
  omega

lemma min_xor_two_pow_aligned (k a : Nat) (h : a % 2 ^ k = 0) :
    min a (a ^^^ 2 ^ k) % 2 ^ (k + 1) = 0 := by
  obtain ⟨q, hq⟩ : 2 ^ k ∣ a := Nat.dvd_of_mod_eq_zero h
  subst hq
  have hx := mul_two_pow_xor k q 1
  rw [mul_one] at hx
  rw [hx]
  rcases Nat.mod_two_eq_zero_or_one q with hq2 | hq2
  · rw [xor_one_of_even q hq2]
    rw [min_eq_left (Nat.mul_le_mul_left _ (by omega))]
    obtain ⟨m, hm⟩ : 2 ∣ q := Nat.dvd_of_mod_eq_zero hq2
    subst hm
    rw [pow_succ]
    rw [show 2 ^ k * (2 * m) = 2 ^ k * 2 * m by ring]
    exact Nat.mul_mod_right _ _
  · rw [xor_one_of_odd q hq2]
    rw [min_eq_right (Nat.mul_le_mul_left _ (by omega))]
    have hm : q - 1 = 2 * (q / 2) := by omega
    rw [hm, pow_succ]
    rw [show 2 ^ k * (2 * (q / 2)) = 2 ^ k * 2 * (q / 2) by ring]
    exact Nat.mul_mod_right _ _

lemma AFL_congr (s t : BuddyAllocator) (h : t.free_lists = s.free_lists)
    (hs : AlignedFreeLists s) : AlignedFreeLists t := by
  intro o a ha
  rw [h] at ha
  exact hs o a ha

lemma AFL_replicate_empty (s : BuddyAllocator)
    (h : s.free_lists = List.replicate (MAX_ORDER + 1) []) : AlignedFreeLists s := by
  intro o a ha
  rw [h, List.getD_eq_getElem?_getD, List.getElem?_replicate] at ha
  split at ha
  · simp at ha
  · simp at ha

lemma AFL_set_subset (s : BuddyAllocator) (o : Nat) (new : List Nat)
    (hsub : ∀ x ∈ new, x ∈ s.free_lists.getD o [])
    (hs : AlignedFreeLists s) :
    AlignedFreeLists { s with free_lists := s.free_lists.set o new } := by
  intro o' a ha
  simp only at ha
  by_cases hlen : o < s.free_lists.length
  · by_cases heq : o = o'
    · subst heq
      rw [getD_set_self _ _ _ _ hlen] at ha
      exact hs o a (hsub a ha)
    · rw [getD_set_ne _ _ _ _ _ heq] at ha
      exact hs o' a ha
  · rw [List.set_eq_of_length_le (by omega)] at ha
    exact hs o' a ha

lemma AFL_set_cons (s : BuddyAllocator) (o addr : Nat)
    (halign : addr % order_to_size o = 0)
    (hs : AlignedFreeLists s) :
    AlignedFreeLists
      { s with free_lists := s.free_lists.set o (addr :: s.free_lists.getD o []) } := by
  intro o' a ha
  simp only at ha
  by_cases hlen : o < s.free_lists.length
  · by_cases heq : o = o'
    · subst heq
      rw [getD_set_self _ _ _ _ hlen] at ha
      rcases List.mem_cons.1 ha with rfl | ha
      · exact halign
      · exact hs o a ha
    · rw [getD_set_ne _ _ _ _ _ heq] at ha
      exact hs o' a ha
  · rw [List.set_eq_of_length_le (by omega)] at ha
    exact hs o' a ha

lemma AFL_mark_pages_as_free (s : BuddyAllocator) (a c : Nat)
    (hs : AlignedFreeLists s) : AlignedFreeLists (mark_pages_as_free s a c) :=
  AFL_congr s _ (mark_pages_as_free_free_lists s a c) hs

lemma AFL_mark_pages_as_allocated (s : BuddyAllocator) (a c : Nat)
    (hs : AlignedFreeLists s) : AlignedFreeLists (mark_pages_as_allocated s a c) :=
  AFL_congr s _ (mark_pages_as_allocated_free_lists s a c) hs

lemma AFL_free_region (s : BuddyAllocator) (addr order : Nat)
    (halign : addr % order_to_size order = 0)
    (hs : AlignedFreeLists s) : AlignedFreeLists (free_region s addr order) := by
  unfold free_region
  split
  · exact hs
  · exact AFL_set_cons _ order addr halign (AFL_mark_pages_as_free _ _ _ hs)

lemma mbs_loop_spec (addr e : Nat) :
    ∀ rem k size, size = order_to_size k → addr % size = 0 →
      ∃ t, k ≤ t ∧ t ≤ k + rem ∧ mbs_loop addr e size rem = order_to_size t ∧
        addr % order_to_size t = 0 := by
  intro rem
  induction rem with
  | zero =>
    intro k size hsz hal
    exact ⟨k, le_refl k, by omega, by unfold mbs_loop; omega, by rw [← hsz]; exact hal⟩
  | succ rem ih =>
    intro k size hsz hal
    unfold mbs_loop
    dsimp only
    by_cases hcond : addr % (size * 2) ≠ 0 ∨ (addr + size * 2) % USIZE_MOD > e
    · rw [if_pos hcond]
      exact ⟨k, le_refl k, by omega, by rw [hsz], by rw [← hsz]; exact hal⟩
    · rw [if_neg hcond]
      push_neg at hcond
      have hsz2 : size * 2 = order_to_size (k + 1) := by
        rw [hsz, order_to_size_eq_pow, order_to_size_eq_pow]
        ring
      obtain ⟨t, h1, h2, h3, h4⟩ := ih (k + 1) (size * 2) hsz2 hcond.1
      exact ⟨t, by omega, by omega, h3, h4⟩

lemma max_block_size_spec (addr e : Nat) (h : addr % PAGE_SIZE = 0) :
    ∃ t, t ≤ MAX_ORDER ∧ max_block_size addr e = order_to_size t ∧
      addr % order_to_size t = 0 := by
  have h0 : PAGE_SIZE = order_to_size 0 := by
    unfold order_to_size; norm_num
  obtain ⟨t, _, h2, h3, h4⟩ := mbs_loop_spec addr e MAX_ORDER 0 PAGE_SIZE h0 h
  exact ⟨t, by omega, h3, h4⟩

lemma sto_loop_exact :
    ∀ rem order t, order ≤ t → t ≤ order + rem →
      sto_loop (2 ^ t) order (2 ^ order) rem = t := by
  intro rem
  induction rem with
  | zero =>
    intro order t h1 h2
    unfold sto_loop
    omega
  | succ rem ih =>
    intro order t h1 h2
    unfold sto_loop
    by_cases hlt : 2 ^ order < 2 ^ t
    · rw [if_pos hlt]
      have ho : order < t := (Nat.pow_lt_pow_iff_right (by omega)).1 hlt
      have hp : 2 ^ order * 2 = 2 ^ (order + 1) := by rw [Nat.pow_succ]
      rw [hp]
      exact ih (order + 1) t (by omega) (by omega)
    · rw [if_neg hlt]
      have : t ≤ order := by
        by_contra hc
        exact hlt (Nat.pow_lt_pow_right (by omega) (by omega))
      omega

lemma size_to_order_exact (t : Nat) (h : t ≤ MAX_ORDER) :
    size_to_order (order_to_size t) = t := by
  unfold size_to_order
  have hp : order_to_size t / PAGE_SIZE = 2 ^ t := by
    unfold order_to_size
    rw [Nat.mul_div_cancel_left _ (by norm_num [PAGE_SIZE])]
  rw [hp]
  have h1 : (1 : Nat) = 2 ^ 0 := rfl
  rw [h1]
  exact sto_loop_exact MAX_ORDER 0 t (by omega) (by omega)

lemma AFL_initWalk :
    ∀ fuel (s : BuddyAllocator) (addr e : Nat), addr % PAGE_SIZE = 0 →
      AlignedFreeLists s → AlignedFreeLists (initWalk fuel s addr e) := by
  intro fuel
  induction fuel with
  | zero => intro s addr e _ hs; exact hs
  | succ fuel ih =>
    intro s addr e hal hs
    rw [initWalk]
    split
    · obtain ⟨t, ht, hmb, hta⟩ := max_block_size_spec addr e hal
      simp only [hmb, size_to_order_exact t ht]
      apply ih
      · rw [Nat.mod_mod_of_dvd _ (by norm_num [USIZE_MOD, PAGE_SIZE])]
        have hdvd : PAGE_SIZE ∣ order_to_size t := by
          have h0 : order_to_size 0 = PAGE_SIZE := by simp [order_to_size]
          rw [← h0]
          exact order_to_size_dvd 0 t (Nat.zero_le t)
        obtain ⟨c, hc⟩ := hdvd
        rw [hc, Nat.add_mod, hal, Nat.mul_mod_right]
        simp
      · exact AFL_free_region s addr t hta hs
    · exact hs

lemma AFL_initEntry (s : BuddyAllocator) (e : MmapEntry)
    (hs : AlignedFreeLists s) : AlignedFreeLists (initEntry s e) := by
  unfold initEntry
  split
  · dsimp only
    split
    · exact hs
    · exact AFL_initWalk _ s _ _ (align_up_page_aligned _) hs
  · exact hs

lemma AFL_initEntry_foldl :
    ∀ (l : List MmapEntry) (s : BuddyAllocator), AlignedFreeLists s →
      AlignedFreeLists (l.foldl initEntry s) := by
  intro l
  induction l with
  | nil => intro s hs; exact hs
  | cons x xs ih => intro s hs; exact ih _ (AFL_initEntry s x hs)

lemma store_all_ones_free_lists (s : BuddyAllocator) (n : Nat) :
    (store_all_ones s n).free_lists = s.free_lists := by
  unfold store_all_ones
  apply foldl_proj_const
  intro t i
  split
  · rfl
  · rfl

lemma store_all_ones_inited (s : BuddyAllocator) (n : Nat) :
    (store_all_ones s n).inited = s.inited := by
  unfold store_all_ones
  apply foldl_proj_const
  intro t i
  split
  · rfl
  · rfl

lemma AFL_initMmap (s : BuddyAllocator) (entries : List MmapEntry)
    (h : s.inited = true → AlignedFreeLists s) :
    AlignedFreeLists (s.initMmap entries) := by
  unfold BuddyAllocator.initMmap
  split
  · exact h (by assumption)
  · apply AFL_congr _ _ rfl
    apply AFL_initEntry_foldl
    apply AFL_congr _ _ (store_all_ones_free_lists _ _)
    exact AFL_replicate_empty _ rfl

lemma AFL_split_loop :
    ∀ (d : Nat) (s : BuddyAllocator) (b o : Nat), o + d ≤ MAX_ORDER →
      b % order_to_size (o + d) = 0 → AlignedFreeLists s →
      AlignedFreeLists (split_loop s b o d) := by
  intro d
  induction d with
  | zero => intro s b o _ _ hs; exact hs
  | succ d ih =>
    intro s b o hod hb hs
    unfold split_loop
    dsimp only
    apply ih _ b o (by omega)
    · exact Nat.mod_eq_zero_of_dvd
        (dvd_trans (order_to_size_dvd (o + d) (o + (d + 1)) (by omega))
          (Nat.dvd_of_mod_eq_zero hb))
    · apply AFL_free_region
      · have hsz : order_to_size (o + d) ∣ USIZE_MOD :=
          order_to_size_dvd_usize _ (by omega)
        rw [Nat.mod_mod_of_dvd _ hsz, Nat.add_mod,
          Nat.mod_eq_zero_of_dvd (dvd_trans
            (order_to_size_dvd (o + d) (o + (d + 1)) (by omega))
            (Nat.dvd_of_mod_eq_zero hb)),
          Nat.mod_self]
        simp
      · exact hs

lemma ffb_loop_spec :
    ∀ (rem : Nat) (s : BuddyAllocator) (order current : Nat), order ≤ current →
      current + rem = MAX_ORDER + 1 → AlignedFreeLists s →
      ∀ b s2, ffb_loop s order current rem = some (b, s2) →
        b % order_to_size order = 0 ∧ AlignedFreeLists s2 := by
  intro rem
  induction rem with
  | zero => intro s order current _ _ _ b s2 h; exact absurd h (by unfold ffb_loop; simp)
  | succ rem ih =>
    intro s order current hoc hcr hs b s2 h
    rw [ffb_loop] at h
    rcases hgd : s.free_lists.getD current [] with _ | ⟨block, rest⟩
    · rw [hgd] at h
      exact ih s order (current + 1) (by omega) (by omega) hs b s2 h
    · rw [hgd] at h
      dsimp only at h
      have hmem : block ∈ s.free_lists.getD current [] := by rw [hgd]; exact List.mem_cons_self _ _
      have hbal : block % order_to_size current = 0 := hs current block hmem
      have hbal2 : block % order_to_size order = 0 :=
        Nat.mod_eq_zero_of_dvd
          (dvd_trans (order_to_size_dvd order current hoc) (Nat.dvd_of_mod_eq_zero hbal))
      have hs1 : AlignedFreeLists { s with free_lists := s.free_lists.set current rest } := by
        apply AFL_set_subset s current rest
        · intro x hx; rw [hgd]; exact List.mem_cons_of_mem _ hx
        · exact hs
      have hsplit : AlignedFreeLists
          (split_loop { s with free_lists := s.free_lists.set current rest } block order
            (current - order)) := by
        apply AFL_split_loop _ _ block order (by omega)
        · rw [show order + (current - order) = current by omega]
          exact hbal
        · exact hs1
      injection h with h1
      injection h1 with hb hsx
      subst hb
      subst hsx
      exact ⟨hbal2, hsplit⟩

lemma AFL_allocate (s : BuddyAllocator) (o : Nat) (hs : AlignedFreeLists s) :
    AlignedFreeLists (s.allocate o).2 ∧
      (∀ r s2, s.allocate o = (.ok r, s2) → r % order_to_size o = 0) := by
  unfold BuddyAllocator.allocate
  by_cases hi : !s.inited
  · rw [if_pos hi]
    exact ⟨hs, by intro r s2 h; injection h with h1 _; exact absurd h1 (by simp)⟩
  · rw [if_neg hi]
    by_cases hord : o > MAX_ORDER
    · rw [if_pos hord]
      exact ⟨hs, by intro r s2 h; injection h with h1 _; exact absurd h1 (by simp)⟩
    · rw [if_neg hord]
      rcases hf : find_free_block s o with _ | ⟨b, s1⟩
      · exact ⟨hs, by intro r s2 h; injection h with h1 _; exact absurd h1 (by simp)⟩
      · have hspec := ffb_loop_spec (MAX_ORDER + 1 - o) s o o (le_refl o) (by omega) hs b s1
          (by rw [← hf]; rfl)
        refine ⟨?_, ?_⟩
        · dsimp only
          exact AFL_mark_pages_as_allocated _ _ _ hspec.2
        · intro r s2 h
          injection h with h1 _
          injection h1 with hr
          subst hr
          have hdvd : order_to_size o ∣ USIZE_MOD := order_to_size_dvd_usize o (by omega)
          unfold u32cast
          rw [Nat.mod_mod_of_dvd _ hdvd]
          exact hspec.1

lemma removeFirst_subset :
    ∀ (l : List Nat) (a x : Nat), x ∈ removeFirst l a → x ∈ l := by
  intro l
  induction l with
  | nil => intro a x h; exact absurd h (by simp [removeFirst])
  | cons y ys ih =>
    intro a x h
    unfold removeFirst at h
    split at h
    · exact List.mem_cons_of_mem _ h
    · rcases List.mem_cons.1 h with rfl | h
      · exact List.mem_cons_self _ _
      · exact List.mem_cons_of_mem _ (ih a x h)

lemma AFL_remove_from_free_list (s : BuddyAllocator) (addr order : Nat)
    (hs : AlignedFreeLists s) : AlignedFreeLists (remove_from_free_list s addr order) := by
  unfold remove_from_free_list
  exact AFL_set_subset s order _ (fun x hx => removeFirst_subset _ addr x hx) hs

lemma AFL_free_block :
    ∀ (fuel : Nat) (s : BuddyAllocator) (addr order : Nat),
      addr % order_to_size order = 0 → AlignedFreeLists s →
      AlignedFreeLists (free_block fuel s addr order) := by
  intro fuel
  induction fuel with
  | zero => intro s addr order _ hs; exact hs
  | succ fuel ih =>
    intro s addr order hal hs
    rw [free_block]
    split
    · exact hs
    · rename_i hord
      dsimp only
      split
      · apply ih _ _ (order + 1)
        · simp only [order_to_size_eq_pow] at hal ⊢
          rw [show 12 + (order + 1) = (12 + order) + 1 by omega]
          exact min_xor_two_pow_aligned (12 + order) addr hal
        · exact AFL_remove_from_free_list s _ order hs
      · exact AFL_free_region s addr order hal hs

lemma AFL_free (s : BuddyAllocator) (addr order : Nat) (hs : AlignedFreeLists s) :
    AlignedFreeLists (s.free addr order) := by
  unfold BuddyAllocator.free
  split
  · exact hs
  · dsimp only
    split
    · exact hs
    · rename_i hnal
      push_neg at hnal
      exact AFL_free_block _ s _ order hnal hs

lemma Reachable_AFL (s : BuddyAllocator) (h : Reachable s) : AlignedFreeLists s := by
  induction h with
  | boot ms me bm entries =>
    apply AFL_initMmap
    intro hc
    exact absurd hc (by simp [BuddyAllocator.new])
  | reinit s entries _ ih => exact AFL_initMmap s entries (fun _ => ih)
  | alloc s o _ ih => exact (AFL_allocate s o ih).1
  | dealloc s a o _ ih => exact AFL_free s a o ih

/-- C6: on every reachable allocator state, every address returned by a
successful `allocate(order)` with `order ≤ MAX_ORDER` is aligned to
`PAGE_SIZE << order` (every free-list block is so aligned, and splitting and
coalescing preserve this — `AlignedFreeLists` is the invariant). -/
theorem allocate_returns_aligned (s : BuddyAllocator) (o r : Nat)
    (s2 : BuddyAllocator) (hreach : Reachable s) (ho : o ≤ MAX_ORDER)
    (h : s.allocate o = (.ok r, s2)) : r % (PAGE_SIZE * 2 ^ o) = 0 :=
  (AFL_allocate s o (Reachable_AFL s hreach)).2 r s2 h

/-- C6 witness: the second Scenario A `allocate(0)` (a reachable state)
returns `0x1000`, aligned to `PAGE_SIZE`. -/
theorem allocate_returns_aligned_witness : (0x1000 : Nat) % (PAGE_SIZE * 2 ^ 0) = 0 :=
  allocate_returns_aligned allocA1.2 0 0x1000 allocA2.2
    (Reachable.alloc _ 0 (Reachable.boot 0 0x2000 [0] [entA])) (by decide)
    (by decide)

lemma mark_pages_as_free_split (s : BuddyAllocator) (a m n : Nat) :
    mark_pages_as_free s a (m + n) =
      mark_pages_as_free (mark_pages_as_free s a m) (a + m) n := by
  unfold mark_pages_as_free
  rw [List.range_add, List.foldl_append, List.foldl_map]
  congr 1
  funext t i
  rw [Nat.add_assoc]

lemma mark_pages_as_allocated_split (s : BuddyAllocator) (a m n : Nat) :
    mark_pages_as_allocated s a (m + n) =
      mark_pages_as_allocated (mark_pages_as_allocated s a m) (a + m) n := by
  unfold mark_pages_as_allocated
  rw [List.range_add, List.foldl_append, List.foldl_map]
  congr 1
  funext t i
  rw [Nat.add_assoc]

/-!  ## Word-level evaluation of 32-page bitmap marks  -/

lemma mark_pages_as_free_succ (s : BuddyAllocator) (a i : Nat) :
    mark_pages_as_free s a (i + 1) =
      markPageFree (mark_pages_as_free s a i) ((a + i) % USIZE_MOD) := by
  unfold mark_pages_as_free
  rw [List.range_succ, List.foldl_append, List.foldl_cons, List.foldl_nil]

lemma mark_pages_as_allocated_succ (s : BuddyAllocator) (a i : Nat) :
    mark_pages_as_allocated s a (i + 1) =
      markPageAlloc (mark_pages_as_allocated s a i) ((a + i) % USIZE_MOD) := by
  unfold mark_pages_as_allocated
  rw [List.range_succ, List.foldl_append, List.foldl_cons, List.foldl_nil]

lemma u32sub_u32sub (a m n : Nat) : u32sub (u32sub a m) n = u32sub a (m + n) := by
  simp only [u32sub, USIZE_MOD]
  omega

lemma word_clear_step (i : Nat) (hi : i < 32) :
    (USIZE_MOD - 2 ^ i) &&& ((USIZE_MOD - 1) ^^^ (1 <<< i)) =
      USIZE_MOD - 2 ^ (i + 1) := by
  interval_cases i <;> decide

lemma word_clear_bit (i : Nat) (hi : i < 32) :
    (USIZE_MOD - 2 ^ i) &&& (1 <<< i) ≠ 0 := by
  interval_cases i <;> decide

lemma word_set_step (i : Nat) (hi : i < 32) :
    (2 ^ i - 1) ||| (1 <<< i) = 2 ^ (i + 1) - 1 := by
  interval_cases i <;> decide

lemma word_set_bit (i : Nat) (hi : i < 32) :
    (2 ^ i - 1) &&& (1 <<< i) = 0 := by
  interval_cases i <;> decide

lemma markPageFree_word_step (s : BuddyAllocator) (w i : Nat)
    (hw : w < s.allocated_pages.length) (hi : i < 32)
    (hval : s.allocated_pages.getD w 0 = USIZE_MOD - 2 ^ i)
    (hpages : 32 * w + 32 ≤ s.total_pages) (htp : s.total_pages ≤ USIZE_MOD) :
    markPageFree s ((32 * w + i) % USIZE_MOD) =
      { s with
        allocated_pages := s.allocated_pages.set w (USIZE_MOD - 2 ^ (i + 1))
        allocated_count := u32sub s.allocated_count 1 } := by
  rw [Nat.mod_eq_of_lt (by omega)]
  unfold markPageFree
  rw [if_pos (show 32 * w + i < s.total_pages from by omega)]
  dsimp only
  rw [show (32 * w + i) / 32 = w from by omega,
      show (32 * w + i) % 32 = i from by omega,
      if_pos hw, hval, if_pos (word_clear_bit i hi), word_clear_step i hi]

lemma markPageAlloc_word_step (s : BuddyAllocator) (w i : Nat)
    (hw : w < s.allocated_pages.length) (hi : i < 32)
    (hval : s.allocated_pages.getD w 0 = 2 ^ i - 1)
    (hpages : 32 * w + 32 ≤ s.total_pages) (htp : s.total_pages ≤ USIZE_MOD)
    (hcnt : s.allocated_count + 1 < USIZE_MOD) :
    markPageAlloc s ((32 * w + i) % USIZE_MOD) =
      { s with
        allocated_pages := s.allocated_pages.set w (2 ^ (i + 1) - 1)
        allocated_count := s.allocated_count + 1 } := by
  rw [Nat.mod_eq_of_lt (by omega)]
  unfold markPageAlloc
  rw [if_pos (show 32 * w + i < s.total_pages from by omega)]
  dsimp only
  rw [show (32 * w + i) / 32 = w from by omega,
      show (32 * w + i) % 32 = i from by omega,
      if_pos hw, hval, if_pos (word_set_bit i hi), word_set_step i hi,
      show u32add1 s.allocated_count = s.allocated_count + 1 from
        Nat.mod_eq_of_lt hcnt]

lemma mark_free_word_aux (s : BuddyAllocator) (w : Nat)
    (hw : w < s.allocated_pages.length)
    (hval : s.allocated_pages.getD w 0 = USIZE_MOD - 1)
    (hpages : 32 * w + 32 ≤ s.total_pages) (htp : s.total_pages ≤ USIZE_MOD) :
    ∀ i, 1 ≤ i → i ≤ 32 →
      mark_pages_as_free s (32 * w) i =
        { s with
          allocated_pages := s.allocated_pages.set w (USIZE_MOD - 2 ^ i)
          allocated_count := u32sub s.allocated_count i } := by
  intro i
  induction i with
  | zero => intro h; omega
  | succ i ih =>
    intro _ h32
    rw [mark_pages_as_free_succ]
    by_cases h0 : i = 0
    · subst h0
      rw [show mark_pages_as_free s (32 * w) 0 = s from rfl]
      exact markPageFree_word_step s w 0 hw (by omega)
        (by rw [pow_zero]; exact hval) hpages htp
    · rw [ih (by omega) (by omega),
        markPageFree_word_step
          { s with
            allocated_pages := s.allocated_pages.set w (USIZE_MOD - 2 ^ i)
            allocated_count := u32sub s.allocated_count i } w i
          (by simpa using hw) (by omega)
          (getD_set_self s.allocated_pages w (USIZE_MOD - 2 ^ i) 0 hw)
          hpages htp]
      show ({ s with
          allocated_pages :=
            (s.allocated_pages.set w (USIZE_MOD - 2 ^ i)).set w
              (USIZE_MOD - 2 ^ (i + 1))
          allocated_count := u32sub (u32sub s.allocated_count i) 1 } :
          BuddyAllocator) = _
      rw [List.set_set, u32sub_u32sub]

lemma mark_alloc_word_aux (s : BuddyAllocator) (w : Nat)
    (hw : w < s.allocated_pages.length)
    (hval : s.allocated_pages.getD w 0 = 0)
    (hpages : 32 * w + 32 ≤ s.total_pages) (htp : s.total_pages ≤ USIZE_MOD)
    (hcnt : s.allocated_count + 32 < USIZE_MOD) :
    ∀ i, 1 ≤ i → i ≤ 32 →
      mark_pages_as_allocated s (32 * w) i =
        { s with
          allocated_pages := s.allocated_pages.set w (2 ^ i - 1)
          allocated_count := s.allocated_count + i } := by
  intro i
  induction i with
  | zero => intro h; omega
  | succ i ih =>
    intro _ h32
    rw [mark_pages_as_allocated_succ]
    by_cases h0 : i = 0
    · subst h0
      rw [show mark_pages_as_allocated s (32 * w) 0 = s from rfl]
      exact markPageAlloc_word_step s w 0 hw (by omega)
        (by rw [hval]; decide) hpages htp (by omega)
    · rw [ih (by omega) (by omega),
        markPageAlloc_word_step
          { s with
            allocated_pages := s.allocated_pages.set w (2 ^ i - 1)
            allocated_count := s.allocated_count + i } w i
          (by simpa using hw) (by omega)
          (getD_set_self s.allocated_pages w (2 ^ i - 1) 0 hw)
          hpages htp
          (by show s.allocated_count + i + 1 < USIZE_MOD; omega)]
      show ({ s with
          allocated_pages :=
            (s.allocated_pages.set w (2 ^ i - 1)).set w (2 ^ (i + 1) - 1)
          allocated_count := s.allocated_count + i + 1 } :
          BuddyAllocator) = _
      rw [List.set_set, Nat.add_assoc]

lemma mark_free_word (s : BuddyAllocator) (w : Nat)
    (hw : w < s.allocated_pages.length)
    (hval : s.allocated_pages.getD w 0 = USIZE_MOD - 1)
    (hpages : 32 * w + 32 ≤ s.total_pages) (htp : s.total_pages ≤ USIZE_MOD) :
    mark_pages_as_free s (32 * w) 32 =
      { s with
        allocated_pages := s.allocated_pages.set w 0
        allocated_count := u32sub s.allocated_count 32 } := by
  rw [mark_free_word_aux s w hw hval hpages htp 32 (by omega) (by omega),
      show USIZE_MOD - 2 ^ 32 = 0 from by norm_num [USIZE_MOD]]

lemma mark_alloc_word (s : BuddyAllocator) (w : Nat)
    (hw : w < s.allocated_pages.length)
    (hval : s.allocated_pages.getD w 0 = 0)
    (hpages : 32 * w + 32 ≤ s.total_pages) (htp : s.total_pages ≤ USIZE_MOD)
    (hcnt : s.allocated_count + 32 < USIZE_MOD) :
    mark_pages_as_allocated s (32 * w) 32 =
      { s with
        allocated_pages := s.allocated_pages.set w (USIZE_MOD - 1)
        allocated_count := s.allocated_count + 32 } := by
  rw [mark_alloc_word_aux s w hw hval hpages htp hcnt 32 (by omega) (by omega),
      show (2 : Nat) ^ 32 - 1 = USIZE_MOD - 1 from by norm_num [USIZE_MOD]]

lemma getD_replicate_append (j m M : Nat) (hm : 0 < m) :
    (List.replicate j (0 : Nat) ++ List.replicate m M).getD j 0 = M := by
  rw [List.getD_eq_getElem?_getD,
      List.getElem?_append_right (by simp only [List.length_replicate]; omega)]
  simp [List.getElem?_replicate, hm]

lemma bmA_length (k : Nat) (hk : k ≤ 128) : (bmA k).length = 128 := by
  simp only [bmA, List.length_append, List.length_replicate]
  omega

lemma bmB_length (k : Nat) (hk : k ≤ 64) : (bmB k).length = 128 := by
  simp only [bmB, List.length_append, List.length_replicate]
  omega

lemma bmC_length (k : Nat) (hk : k ≤ 64) : (bmC k).length = 128 := by
  simp only [bmC, List.length_append, List.length_replicate]
  omega

lemma bmA_getD (k : Nat) (hk : k < 128) :
    (bmA k).getD k 0 = USIZE_MOD - 1 := by
  unfold bmA
  exact getD_replicate_append k (128 - k) (USIZE_MOD - 1) (by omega)

lemma bmB_getD (k : Nat) (hk : k < 64) :
    (bmB k).getD (64 + k) 0 = USIZE_MOD - 1 := by
  unfold bmB
  exact getD_replicate_append (64 + k) (64 - k) (USIZE_MOD - 1) (by omega)

lemma bmC_getD (k : Nat) (hk : k < 64) : (bmC k).getD (64 + k) 0 = 0 := by
  unfold bmC
  rw [List.getD_eq_getElem?_getD,
      List.getElem?_append_right
        (by simp only [List.length_append, List.length_replicate]; omega)]
  simp only [List.length_append, List.length_replicate, Nat.sub_self]
  have h0 : 0 < 64 - k := by omega
  simp [List.getElem?_replicate, h0]

lemma bmA_set (k : Nat) (hk : k < 128) : (bmA k).set k 0 = bmA (k + 1) := by
  unfold bmA
  rw [List.set_append_right _ _ (by simp only [List.length_replicate]; omega)]
  simp only [List.length_replicate, Nat.sub_self]
  rw [show 128 - k = (127 - k) + 1 from by omega, List.replicate_succ,
      show 128 - (k + 1) = 127 - k from by omega,
      List.replicate_succ' k, List.append_assoc, List.singleton_append]
  rfl

lemma bmB_set (k : Nat) (hk : k < 64) :
    (bmB k).set (64 + k) 0 = bmB (k + 1) := by
  unfold bmB
  rw [List.set_append_right _ _ (by simp only [List.length_replicate]; omega)]
  simp only [List.length_replicate, Nat.sub_self]
  rw [show 64 - k = (63 - k) + 1 from by omega, List.replicate_succ,
      show 64 - (k + 1) = 63 - k from by omega,
      show 64 + (k + 1) = (64 + k) + 1 from by omega,
      List.replicate_succ' (64 + k), List.append_assoc, List.singleton_append]
  rfl

lemma bmC_set (k : Nat) (hk : k < 64) :
    (bmC k).set (64 + k) (USIZE_MOD - 1) = bmC (k + 1) := by
  unfold bmC
  rw [List.set_append_right _ _
      (by simp only [List.length_append, List.length_replicate]; omega)]
  simp only [List.length_append, List.length_replicate, Nat.sub_self]
  rw [show 64 - k = (63 - k) + 1 from by omega, List.replicate_succ,
      show 64 - (k + 1) = 63 - k from by omega,
      List.replicate_succ' k, List.append_assoc, List.append_assoc,
      List.append_assoc, List.singleton_append]
  rfl

lemma chunkA (k : Nat) (hk : k < 64) :
    mark_pages_as_free (mkB false emptyLists (bmA k) (u32sub 0 (32 * k)))
        (32 * k) 32 =
      mkB false emptyLists (bmA (k + 1)) (u32sub 0 (32 * (k + 1))) := by
  rw [mark_free_word (mkB false emptyLists (bmA k) (u32sub 0 (32 * k))) k
      (show k < (bmA k).length from by rw [bmA_length k (by omega)]; omega)
      (bmA_getD k (by omega))
      (show 32 * k + 32 ≤ 4096 from by omega)
      (show (4096 : Nat) ≤ USIZE_MOD from by norm_num [USIZE_MOD])]
  show mkB false emptyLists ((bmA k).set k 0)
      (u32sub (u32sub 0 (32 * k)) 32) =
    mkB false emptyLists (bmA (k + 1)) (u32sub 0 (32 * (k + 1)))
  rw [bmA_set k (by omega), u32sub_u32sub,
      show 32 * k + 32 = 32 * (k + 1) from by ring]

lemma chunkB (k : Nat) (hk : k < 64) :
    mark_pages_as_free
        (mkB false (emptyLists.set 11 [0]) (bmB k) (u32sub 0 (2048 + 32 * k)))
        (2048 + 32 * k) 32 =
      mkB false (emptyLists.set 11 [0]) (bmB (k + 1))
        (u32sub 0 (2048 + 32 * (k + 1))) := by
  rw [show 2048 + 32 * k = 32 * (64 + k) from by ring,
      mark_free_word
        (mkB false (emptyLists.set 11 [0]) (bmB k) (u32sub 0 (32 * (64 + k))))
        (64 + k)
        (show 64 + k < (bmB k).length from by rw [bmB_length k (by omega)]; omega)
        (bmB_getD k (by omega))
        (show 32 * (64 + k) + 32 ≤ 4096 from by omega)
        (show (4096 : Nat) ≤ USIZE_MOD from by norm_num [USIZE_MOD])]
  show mkB false (emptyLists.set 11 [0]) ((bmB k).set (64 + k) 0)
      (u32sub (u32sub 0 (32 * (64 + k))) 32) =
    mkB false (emptyLists.set 11 [0]) (bmB (k + 1))
      (u32sub 0 (2048 + 32 * (k + 1)))
  rw [bmB_set k (by omega), u32sub_u32sub,
      show 32 * (64 + k) + 32 = 2048 + 32 * (k + 1) from by ring]

lemma chunkC (k : Nat) (hk : k < 64) :
    mark_pages_as_allocated
        (mkB true (emptyLists.set 11 [0]) (bmC k) (USIZE_MOD - 4096 + 32 * k))
        (2048 + 32 * k) 32 =
      mkB true (emptyLists.set 11 [0]) (bmC (k + 1))
        (USIZE_MOD - 4096 + 32 * (k + 1)) := by
  rw [show 2048 + 32 * k = 32 * (64 + k) from by ring,
      mark_alloc_word
        (mkB true (emptyLists.set 11 [0]) (bmC k) (USIZE_MOD - 4096 + 32 * k))
        (64 + k)
        (show 64 + k < (bmC k).length from by rw [bmC_length k (by omega)]; omega)
        (bmC_getD k (by omega))
        (show 32 * (64 + k) + 32 ≤ 4096 from by omega)
        (show (4096 : Nat) ≤ USIZE_MOD from by norm_num [USIZE_MOD])
        (show USIZE_MOD - 4096 + 32 * k + 32 < USIZE_MOD from by
          simp only [USIZE_MOD]; omega)]
  show mkB true (emptyLists.set 11 [0]) ((bmC k).set (64 + k) (USIZE_MOD - 1))
      (USIZE_MOD - 4096 + 32 * k + 32) =
    mkB true (emptyLists.set 11 [0]) (bmC (k + 1))
      (USIZE_MOD - 4096 + 32 * (k + 1))
  rw [bmC_set k (by omega),
      show USIZE_MOD - 4096 + 32 * k + 32 = USIZE_MOD - 4096 + 32 * (k + 1)
        from by simp only [USIZE_MOD]; omega]


lemma phaseA : ∀ j, j ≤ 64 →
    mark_pages_as_free (mkB false emptyLists (bmA 0) 0) 0 (32 * j) =
      mkB false emptyLists (bmA j) (u32sub 0 (32 * j)) := by
  intro j
  induction j with
  | zero => intro _; decide
  | succ j ih =>
    intro hj
    rw [show 32 * (j + 1) = 32 * j + 32 by ring, mark_pages_as_free_split,
      ih (by omega), Nat.zero_add]
    exact chunkA j (by omega)

lemma phaseB : ∀ j, j ≤ 64 →
    mark_pages_as_free (mkB false (emptyLists.set 11 [0]) (bmB 0) (u32sub 0 2048))
        2048 (32 * j) =
      mkB false (emptyLists.set 11 [0]) (bmB j) (u32sub 0 (2048 + 32 * j)) := by
  intro j
  induction j with
  | zero => intro _; decide
  | succ j ih =>
    intro hj
    rw [show 32 * (j + 1) = 32 * j + 32 by ring, mark_pages_as_free_split,
      ih (by omega)]
    exact chunkB j (by omega)

lemma phaseC : ∀ j, j ≤ 64 →
    mark_pages_as_allocated
        (mkB true (emptyLists.set 11 [0]) (bmC 0) (USIZE_MOD - 4096))
        2048 (32 * j) =
      mkB true (emptyLists.set 11 [0]) (bmC j) (USIZE_MOD - 4096 + 32 * j) := by
  intro j
  induction j with
  | zero => intro _; decide
  | succ j ih =>
    intro hj
    rw [show 32 * (j + 1) = 32 * j + 32 by ring, mark_pages_as_allocated_split,
      ih (by omega)]
    exact chunkC j (by omega)

set_option maxRecDepth 2000 in
lemma fr1 : free_region (mkB false emptyLists (bmA 0) 0) 0 11 =
    mkB false (emptyLists.set 11 [0]) (bmB 0) (u32sub 0 2048) := by
  have hstep : free_region (mkB false emptyLists (bmA 0) 0) 0 11 =
      { mark_pages_as_free (mkB false emptyLists (bmA 0) 0) 0 (32 * 64) with
        free_lists :=
          (mark_pages_as_free (mkB false emptyLists (bmA 0) 0) 0
            (32 * 64)).free_lists.set 11
            (0 ::
              (mark_pages_as_free (mkB false emptyLists (bmA 0) 0) 0
                (32 * 64)).free_lists.getD 11 []) } := rfl
  rw [hstep, phaseA 64 (by omega)]
  decide

set_option maxRecDepth 2000 in
lemma fr2 : free_region (mkB false (emptyLists.set 11 [0]) (bmB 0) (u32sub 0 2048))
      8388608 11 =
    mkB false (emptyLists.set 11 [8388608, 0]) (bmB 64) (u32sub 0 4096) := by
  have hstep : free_region (mkB false (emptyLists.set 11 [0]) (bmB 0) (u32sub 0 2048))
      8388608 11 =
      { mark_pages_as_free (mkB false (emptyLists.set 11 [0]) (bmB 0) (u32sub 0 2048))
          2048 (32 * 64) with
        free_lists :=
          (mark_pages_as_free (mkB false (emptyLists.set 11 [0]) (bmB 0)
            (u32sub 0 2048)) 2048 (32 * 64)).free_lists.set 11
            (8388608 ::
              (mark_pages_as_free (mkB false (emptyLists.set 11 [0]) (bmB 0)
                (u32sub 0 2048)) 2048 (32 * 64)).free_lists.getD 11 []) } := rfl
  rw [hstep, phaseB 64 (by omega)]
  decide

set_option maxRecDepth 2000 in
lemma walkStep : initWalk 4097 (mkB false emptyLists (bmA 0) 0) 0 16777216 =
    mkB false (emptyLists.set 11 [8388608, 0]) (bmB 64) (u32sub 0 4096) := by
  rw [show (4097 : Nat) = 4096 + 1 by norm_num, initWalk, if_pos (by decide)]
  dsimp only
  rw [show max_block_size 0 16777216 = 8388608 from by decide]
  rw [show size_to_order 8388608 = 11 from by decide]
  rw [fr1]
  rw [show (0 + 8388608) % USIZE_MOD = 8388608 from by decide]
  rw [show (4096 : Nat) = 4095 + 1 by norm_num, initWalk, if_pos (by decide)]
  dsimp only
  rw [show max_block_size 8388608 16777216 = 8388608 from by decide]
  rw [show size_to_order 8388608 = 11 from by decide]
  rw [fr2]
  rw [show (8388608 + 8388608) % USIZE_MOD = 16777216 from by decide]
  rw [show (4095 : Nat) = 4094 + 1 by norm_num, initWalk, if_neg (by decide)]

set_option maxRecDepth 20000 in
lemma storeStep :
    store_all_ones (mkB false emptyLists (List.replicate 128 0) 0) 128 =
      mkB false emptyLists (bmA 0) 0 := by
  rfl

set_option maxRecDepth 8000 in
lemma entryStep : initEntry (mkB false emptyLists (bmA 0) 0) entB =
    mkB false (emptyLists.set 11 [8388608, 0]) (bmB 64) (u32sub 0 4096) := by
  unfold initEntry
  rw [if_pos (show entB.entry_type = EntryType.Available from rfl)]
  dsimp only
  rw [show align_up (u32cast entB.addr) PAGE_SIZE = 0 from by decide,
    show align_down ((u32cast entB.addr + entB.len) % USIZE_MOD) PAGE_SIZE = 16777216
      from by decide]
  rw [if_neg (by decide)]
  rw [show (16777216 / PAGE_SIZE + 1 : Nat) = 4097 from by decide]
  exact walkStep

set_option maxRecDepth 8000 in
lemma sBinit_eq : sBinit = sB0 := by
  have h1 : sBinit =
      { List.foldl initEntry
          (store_all_ones (mkB false emptyLists (List.replicate 128 0) 0) 128)
          [entB] with inited := true } := rfl
  rw [h1, storeStep, List.foldl_cons, List.foldl_nil, entryStep]
  decide

set_option maxRecDepth 4000 in
lemma popB : find_free_block sB0 11 =
    some (8388608, mkB true (emptyLists.set 11 [0]) (bmC 0) (USIZE_MOD - 4096)) := by
  decide

set_option maxRecDepth 4000 in
lemma allocStep : sB0.allocate 11 = (.ok 8388608, sB1) := by
  unfold BuddyAllocator.allocate
  rw [if_neg (by decide), if_neg (by decide), popB]
  dsimp only
  rw [show u32sub 8388608
      (u32cast (mkB true (emptyLists.set 11 [0]) (bmC 0)
        (USIZE_MOD - 4096)).memory_start) / PAGE_SIZE = 2048 from by decide,
    show ((2 : Nat) ^ 11) = 32 * 64 from by norm_num, phaseC 64 (by omega)]
  decide

set_option maxRecDepth 4000 in
lemma freeStep : sB1.free 8388608 11 = sBf := by
  decide

lemma sBalloc_eq : sBalloc = (.ok 8388608, sB1) := by
  unfold sBalloc
  rw [sBinit_eq]
  exact allocStep

lemma sBfinal_eq : sBfinal = sBf := by
  unfold sBfinal
  rw [show sBalloc.2 = sB1 from by rw [sBalloc_eq]]
  exact freeStep

/-- C2 counterexample: on the 16MiB map, `initialize` → `allocate(11)` (which
returns `0x800000`) → `free(0x800000, 11)` — all legal, aligned calls — ends
with page 0's bitmap bit 0 (free) while no free-list entry covers page 0:
the coalescing step reaches order `MAX_ORDER`, unlinks the buddy `0x0` from
the order-11 list, and `free_block(0, 12)` silently drops the merged block,
so the claimed bit-0-iff-covered invariant is violated. -/
theorem coalesce_drop_breaks_bitmap_inv :
    sBalloc.1 = .ok 8388608 ∧
    pageBit sBfinal 0 = false ∧
    coveredByFreeList sBfinal 0 = false ∧
    0 < sBfinal.total_pages ∧
    ¬ bitmapMatchesFreeLists sBfinal := by
  have h1 : sBalloc.1 = .ok 8388608 := by rw [sBalloc_eq]
  have hb : pageBit sBfinal 0 = false := by rw [sBfinal_eq]; decide
  have hc : coveredByFreeList sBfinal 0 = false := by rw [sBfinal_eq]; decide
  have ht : 0 < sBfinal.total_pages := by rw [sBfinal_eq]; decide
  refine ⟨h1, hb, hc, ht, fun hinv => ?_⟩
  have hcov := (hinv 0 ht).1 hb
  rw [hc] at hcov
  exact Bool.false_ne_true hcov

/-- C5 counterexample: on the initialized 16MiB allocator, `allocate(11)`
succeeds with `0x800000`, but `free(0x800000, 11)` does not restore the
pre-allocation `memory_stats`: the merged block is dropped at order 12, so
`allocated_pages()`/`free_pages()` remain 2048 pages off (total is equal). -/
theorem roundtrip_stats_not_restored :
    sBinit.inited = true ∧
    sBalloc.1 = .ok 8388608 ∧
    sBfinal.totalPages = sBinit.totalPages ∧
    sBfinal.allocatedPages ≠ sBinit.allocatedPages ∧
    sBfinal.freePages ≠ sBinit.freePages := by
  refine ⟨?_, ?_, ?_, ?_, ?_⟩
  · rw [sBinit_eq]; rfl
  · rw [sBalloc_eq]
  · rw [sBfinal_eq, sBinit_eq]; rfl
  · rw [sBfinal_eq, sBinit_eq]; decide
  · rw [sBfinal_eq, sBinit_eq]; decide

/-- The fuel `MAX_ORDER + 2` given to `free_block` is irrelevant: any two
fuels that cover the `MAX_ORDER + 1 - order` possible coalescing steps (plus
the final guarded call) produce the same result, so the fuelled recursion
agrees with the Rust recursion. -/
lemma free_block_fuel_congr :
    ∀ f1 f2 (s : BuddyAllocator) (addr order : Nat),
      MAX_ORDER + 1 ≤ order + f1 → MAX_ORDER + 1 ≤ order + f2 →
      free_block f1 s addr order = free_block f2 s addr order := by
  intro f1
  induction f1 with
  | zero =>
    intro f2 s addr order h1 h2
    have ho : order > MAX_ORDER := by omega
    cases f2 with
    | zero => rfl
    | succ g =>
      show free_block 0 s addr order = free_block (g + 1) s addr order
      rw [free_block, free_block, if_pos ho]
  | succ f ih =>
    intro f2 s addr order h1 h2
    cases f2 with
    | zero =>
      have ho : order > MAX_ORDER := by omega
      show free_block (f + 1) s addr order = free_block 0 s addr order
      rw [free_block, free_block, if_pos ho]
    | succ g =>
      show free_block (f + 1) s addr order = free_block (g + 1) s addr order
      rw [free_block, free_block]
      by_cases ho : order > MAX_ORDER
      · rw [if_pos ho, if_pos ho]
      · rw [if_neg ho, if_neg ho]
        dsimp only
        split
        · exact ih g _ _ (order + 1) (by omega) (by omega)
        · rfl
